import Mathlib

/-!
Shallow embedding of `src/app/src/lib/git/diff.ts` (diff classification,
text normalization, image resolution, media-type mapping).

Conventions of the embedding:
* JavaScript promise rejection is modelled with `Except String` (the error
  payload is the error message); an `await` on a rejected promise aborts the
  surrounding function with that error, which is the usual `Except` bind.
* The two external read collaborators (`getBlobContents` from `show.ts` and
  `Fs.readFile` through `getWorkingDirectoryContents`) are not part of the
  excerpt's core logic; they are passed in as oracle functions
  `readBlob : path → rev → Except String String` and
  `readWT : path → Except String String` returning raw bytes (as a string).
* `Buffer.toString('base64')` is abstracted as an arbitrary injective-free
  encoding function `base64 : String → String` passed as a parameter; no
  claim depends on the encoding itself.
* To reason about which reads are attempted, the image-resolution functions
  also return the list of read requests they issued, in issue order,
  mirroring the `await` sequence of the source exactly (a read that is never
  reached because an earlier `await` rejected is not in the list).
* A JavaScript `TypeError` (property access on `undefined`) is modelled as
  the distinguished error message "TypeError".
-/

namespace GitDiff

/-- File status, modelled from the spec (§3 FileChange): `models/status.ts`
is not part of the excerpt. One of New, Modified, Deleted, Renamed,
Conflicted. -/
inductive FileStatus where
  | New
  | Modified
  | Deleted
  | Renamed
  | Conflicted
  deriving DecidableEq, Repr

/-- Modelled from the spec: `FileChange` / `WorkingDirectoryFileChange`
(`models/status.ts` is not in the excerpt). A path, an optional prior path
(rename case), a status, and a discriminant for "change in working tree"
vs "change committed at a revision" — the source distinguishes the two
with `file instanceof WorkingDirectoryFileChange`; per the spec's data
model this is the `origin` discriminant, embedded as `inWorkingDir`. -/
structure FileChange where
  path : String
  oldPath : Option String
  status : FileStatus
  inWorkingDir : Bool

/-- Logical line type, modelled from the spec (§3 RawDiff): each line is
tagged context/addition/deletion. -/
inductive LineKind where
  | context
  | addition
  | deletion
  deriving DecidableEq, Repr

/-- A diff line: display text plus its logical type (spec §3; the line
structure itself comes from `models/diff.ts`, not in the excerpt — only
the `text` field is consumed by `diff.ts`). -/
structure DiffLine where
  text : String
  kind : LineKind := LineKind.context
  deriving DecidableEq, Repr

/-- A diff hunk: an ordered sequence of lines (spec §3). -/
structure DiffHunk where
  lines : List DiffLine
  deriving DecidableEq, Repr

/-- `RawDiff` (spec §3, `models/diff.ts`): binary flag, ordered hunks, and
the two index-lookup helpers produced by the hunk parser, carried through
opaquely. -/
structure RawDiff where
  isBinary : Bool
  hunks : List DiffHunk
  diffLineForIndex : Nat → Option DiffLine
  diffHunkForIndex : Nat → Option DiffHunk

/-- An image side: base64-encoded contents plus a media type
(`models/diff.ts` `Image`, fields as consumed by `diff.ts`). -/
structure Image where
  contents : String
  mediaType : String
  deriving DecidableEq, Repr

/-- `IImageDiff`: the optional previous and current sides. -/
structure IImageDiff where
  previous : Option Image := none
  current : Option Image := none
  deriving DecidableEq, Repr

/-- The `IDiff` tagged union produced by `convertDiff`: Text (normalized
string, hunks and the two passed-through lookups), Binary, Image,
Submodule. -/
inductive IDiff where
  | text (text : String) (hunks : List DiffHunk)
      (diffLineForIndex : Nat → Option DiffLine)
      (diffHunkForIndex : Nat → Option DiffHunk)
  | binary
  | image (d : IImageDiff)
  | submodule

/-- A read request issued to one of the two content-reader collaborators:
either a working-tree read of a path, or a blob read of a path at a
revision. -/
inductive ReadReq where
  | workingTree (path : String)
  | blob (path : String) (rev : String)
  deriving DecidableEq, Repr

/-- The set of image extensions the app can render
(`imageFileExtensions = new Set([ '.png', '.jpg', '.jpeg', '.gif' ])`),
embedded as a list with decidable membership. -/
def imageFileExtensions : List String := [".png", ".jpg", ".jpeg", ".gif"]

/-- Last index of `'.'` in a character list, if any. -/
def lastDotIdx (cs : List Char) : Option Nat :=
  cs.enum.foldl (fun acc p => if p.2 = '.' then some p.1 else acc) none

/-- Split a character list on a separator character (occurrences of the
separator delimit the groups; `n` separators yield `n + 1` groups). -/
def splitOnChar (sep : Char) : List Char → List (List Char)
  | [] => [[]]
  | c :: t =>
      let r := splitOnChar sep t
      if c = sep then [] :: r
      else
        match r with
        | [] => [[c]]
        | g :: gs => (c :: g) :: gs

/-- The final path component, ignoring trailing separators (model of the
basename scan inside Node's `Path.extname`, posix separators). -/
def pathBasename (p : String) : List Char :=
  (((splitOnChar '/' p.data).reverse).dropWhile (fun s => s = [])).headD []

/-- Model of Node's `Path.extname` (posix): the substring of the final path
component from its last `.` to the end; empty when there is no dot, when
the only dot starts the component (dotfiles like `.gitignore`), or for the
special component `..`. Case is preserved: matching downstream is
case-sensitive. -/
def extname (p : String) : String :=
  let b := pathBasename p
  if b = ['.', '.'] then ""
  else
    match lastDotIdx b with
    | none => ""
    | some 0 => ""
    | some i => String.mk (b.drop i)

/-- Model of JavaScript `String.prototype.indexOf` on character lists:
first index (from `i`) at which `pat` occurs in `s`, or `-1`. -/
def listIndexOfFrom (pat : List Char) : List Char → Nat → Int
  | [], i => if pat.isPrefixOf ([] : List Char) then Int.ofNat i else -1
  | c :: t, i =>
      if pat.isPrefixOf (c :: t) then Int.ofNat i
      else listIndexOfFrom pat t (i + 1)

/-- JavaScript `s.indexOf(pat)`: first occurrence index or `-1`. -/
def jsIndexOf (s pat : String) : Int :=
  listIndexOfFrom pat.data s.data 0

/-- JavaScript `a || b` on an optional string: `b` when `a` is absent or
empty (falsy), else the string in `a`. Models `file.oldPath || file.path`. -/
def jsOr (a : Option String) (b : String) : String :=
  match a with
  | none => b
  | some s => if s = "" then b else s

/-- `getMediaType` (`diff.ts` lines 177–190): map a file extension to the
data-URL media type, with a `text/plain` fallback. -/
def getMediaType (extension : String) : String :=
  if extension = ".png" then "image/png"
  else if extension = ".jpg" ∨ extension = ".jpeg" then "image/jpg"
  else if extension = ".gif" then "image/gif"
  else "text/plain"

/-- Model of JavaScript `String.prototype.endsWith` on the character
list: `suf` is a suffix of `s`. -/
def strEndsWith (s suf : String) : Bool :=
  suf.data.isSuffixOf s.data

/-- `formatLineEnding` (`diff.ts` lines 125–133): normalize one line's
terminator. -/
def formatLineEnding (text : String) : String :=
  if strEndsWith text "\n" then text
  else if strEndsWith text "\r" then text ++ "\n"
  else text ++ "\r\n"

/-- The text-assembly loop of `convertDiff` (lines 160–163):
`diff.hunks.forEach(hunk => hunk.lines.forEach(l => diffText += formatLineEnding(l.text)))`. -/
def normalizeText (hunks : List DiffHunk) : String :=
  hunks.foldl
    (fun acc h => h.lines.foldl (fun acc2 l => acc2 ++ formatLineEnding l.text) acc)
    ""

/-- `getBlobImage` (`diff.ts` lines 203–211): read the blob at
`path@commitish` through the reader oracle and wrap it into an `Image`
with the media type of the path's extension. A failed read rejects. -/
def getBlobImage (readBlob : String → String → Except String String)
    (base64 : String → String) (path : String) (commitish : String) :
    Except String Image :=
  match readBlob path commitish with
  | Except.error e => Except.error e
  | Except.ok contents =>
      Except.ok { contents := base64 contents
                  mediaType := getMediaType (extname path) }

/-- `getWorkingDirectoryImage` (`diff.ts` lines 213–221): read the file's
bytes from the working tree and wrap them into an `Image`. A failed read
(`Fs.readFile` error in `getWorkingDirectoryContents`) rejects. -/
def getWorkingDirectoryImage (readWT : String → Except String String)
    (base64 : String → String) (file : FileChange) :
    Except String Image :=
  match readWT file.path with
  | Except.error e => Except.error e
  | Except.ok contents =>
      Except.ok { contents := base64 contents
                  mediaType := getMediaType (extname file.path) }

/-- `getImageDiff` (`diff.ts` lines 74–118). The second component records
the read requests actually issued, in `await` order; an `await` on a
rejected read aborts the function, so later reads are absent from the
record, exactly as in the source. -/
def getImageDiff (readWT : String → Except String String)
    (readBlob : String → String → Except String String)
    (base64 : String → String) (file : FileChange) (commitish : String) :
    Except String IImageDiff × List ReadReq :=
  if file.inWorkingDir then
    -- working-directory branch (`file instanceof WorkingDirectoryFileChange`)
    if file.status = FileStatus.Conflicted then
      (Except.ok { }, [])
    else
      -- current side, unless the file was deleted
      let curStep : Except String (Option Image) × List ReadReq :=
        if file.status = FileStatus.Deleted then (Except.ok none, [])
        else
          match getWorkingDirectoryImage readWT base64 file with
          | Except.ok img => (Except.ok (some img), [ReadReq.workingTree file.path])
          | Except.error e => (Except.error e, [ReadReq.workingTree file.path])
      match curStep with
      | (Except.error e, log) => (Except.error e, log)
      | (Except.ok current, log) =>
          -- previous side, unless the file is new; rename uses oldPath
          if file.status = FileStatus.New then
            (Except.ok { previous := none, current := current }, log)
          else
            let p := jsOr file.oldPath file.path
            match getBlobImage readBlob base64 p "HEAD" with
            | Except.ok img =>
                (Except.ok { previous := some img, current := current },
                 log ++ [ReadReq.blob p "HEAD"])
            | Except.error e => (Except.error e, log ++ [ReadReq.blob p "HEAD"])
  else
    -- committed-revision branch; status cannot be Conflicted here
    let curStep : Except String (Option Image) × List ReadReq :=
      if file.status = FileStatus.Deleted then (Except.ok none, [])
      else
        match getBlobImage readBlob base64 file.path commitish with
        | Except.ok img => (Except.ok (some img), [ReadReq.blob file.path commitish])
        | Except.error e => (Except.error e, [ReadReq.blob file.path commitish])
    match curStep with
    | (Except.error e, log) => (Except.error e, log)
    | (Except.ok current, log) =>
        if file.status = FileStatus.New then
          (Except.ok { previous := none, current := current }, log)
        else
          let p := jsOr file.oldPath file.path
          match getBlobImage readBlob base64 p (commitish ++ "^") with
          | Except.ok img =>
              (Except.ok { previous := some img, current := current },
               log ++ [ReadReq.blob p (commitish ++ "^")])
          | Except.error e =>
              (Except.error e, log ++ [ReadReq.blob p (commitish ++ "^")])

/-- `convertDiff` (`diff.ts` lines 135–171). Binary diffs with an
allow-listed image extension delegate to `getImageDiff`; other binary
diffs yield `IDiff.binary`. Non-binary diffs run the submodule heuristic
on `diff.hunks[0].lines[0].text` — when the first hunk has zero lines,
`lines[0]` is `undefined` and the `.text` access throws a `TypeError` —
and otherwise assemble the Text variant, passing the hunks and the two
index lookups through. -/
def convertDiff (readWT : String → Except String String)
    (readBlob : String → String → Except String String)
    (base64 : String → String) (file : FileChange) (diff : RawDiff)
    (commitish : String) : Except String IDiff × List ReadReq :=
  if diff.isBinary then
    let extension := extname file.path
    if extension ∉ imageFileExtensions then
      (Except.ok IDiff.binary, [])
    else
      match getImageDiff readWT readBlob base64 file commitish with
      | (Except.ok d, log) => (Except.ok (IDiff.image d), log)
      | (Except.error e, log) => (Except.error e, log)
  else
    match diff.hunks with
    | [] =>
        (Except.ok (IDiff.text (normalizeText diff.hunks) diff.hunks
          diff.diffLineForIndex diff.diffHunkForIndex), [])
    | h :: _ =>
        match h.lines with
        | [] => (Except.error "TypeError", [])
        | l :: _ =>
            if jsIndexOf l.text "Subproject" > -1 then
              (Except.ok IDiff.submodule, [])
            else
              (Except.ok (IDiff.text (normalizeText diff.hunks) diff.hunks
                diff.diffLineForIndex diff.diffHunkForIndex), [])

/-! ### Helper lemmas -/

/-- Specification-side concatenation of a list of strings, in order. -/
def concatAll (xs : List String) : String := xs.foldr (fun a b => a ++ b) ""

theorem concatAll_nil : concatAll [] = "" := rfl

theorem concatAll_cons (x : String) (xs : List String) :
    concatAll (x :: xs) = x ++ concatAll xs := rfl

theorem concatAll_append (xs ys : List String) :
    concatAll (xs ++ ys) = concatAll xs ++ concatAll ys := by
  induction xs with
  | nil => simp [concatAll_nil, String.empty_append]
  | cons x t ih => simp [concatAll_cons, ih, String.append_assoc]

theorem foldl_append_concat (f : DiffLine → String) (xs : List DiffLine) (s : String) :
    xs.foldl (fun a l => a ++ f l) s = s ++ concatAll (xs.map f) := by
  induction xs generalizing s with
  | nil => simp [concatAll_nil, String.append_empty]
  | cons x t ih => simp [List.foldl_cons, ih, concatAll_cons, String.append_assoc]

theorem normalizeText_gen (hunks : List DiffHunk) (s : String) :
    hunks.foldl
        (fun acc h => h.lines.foldl (fun a l => a ++ formatLineEnding l.text) acc) s
      = s ++ concatAll
          ((hunks.flatMap (fun h => h.lines)).map (fun l => formatLineEnding l.text)) := by
  induction hunks generalizing s with
  | nil => simp [concatAll_nil, String.append_empty]
  | cons h t ih =>
      rw [List.foldl_cons, foldl_append_concat, ih]
      simp [List.map_append, concatAll_append, String.append_assoc]

/-- The assembly loop of `convertDiff` equals ordered per-line concatenation
of the per-line normalized texts. -/
theorem normalizeText_eq_concat (hunks : List DiffHunk) :
    normalizeText hunks
      = concatAll
          ((hunks.flatMap (fun h => h.lines)).map (fun l => formatLineEnding l.text)) := by
  simpa [normalizeText, String.empty_append] using normalizeText_gen hunks ""

/-! ### Claim theorems -/

/-- Claim C5: the Text Normalizer concatenates every line's text in hunk
order then line order, and per line: a line already ending in `\n` is left
unchanged, a line ending in `\r` (and not `\n`) gets `\n` appended, and a
line ending in neither gets `\r\n` appended; in particular the lines
`["a\r", "b", "c\n"]` normalize to `"a\r\n" ++ "b\r\n" ++ "c\n"`. -/
theorem normalizer_concat_and_terminators :
    (∀ hunks : List DiffHunk,
        normalizeText hunks
          = concatAll
              ((hunks.flatMap (fun h => h.lines)).map
                (fun l => formatLineEnding l.text)))
    ∧ (∀ t : String, strEndsWith t "\n" = true → formatLineEnding t = t)
    ∧ (∀ t : String, strEndsWith t "\n" = false → strEndsWith t "\r" = true →
        formatLineEnding t = t ++ "\n")
    ∧ (∀ t : String, strEndsWith t "\n" = false → strEndsWith t "\r" = false →
        formatLineEnding t = t ++ "\r\n")
    ∧ normalizeText
        [{ lines := [{ text := "a\r" }, { text := "b" }, { text := "c\n" }] }]
        = "a\r\n" ++ "b\r\n" ++ "c\n" := by
  refine ⟨normalizeText_eq_concat, ?_, ?_, ?_, by decide⟩
  · intro t h; simp [formatLineEnding, h]
  · intro t h1 h2; simp [formatLineEnding, h1, h2]
  · intro t h1 h2; simp [formatLineEnding, h1, h2]

theorem normalizer_concat_and_terminators_witness :
    strEndsWith "a\r" "\n" = false ∧ strEndsWith "a\r" "\r" = true
    ∧ formatLineEnding "a\r" = "a\r" ++ "\n" :=
  ⟨by decide, by decide,
    normalizer_concat_and_terminators.2.2.1 "a\r" (by decide) (by decide)⟩

/-- Claim C6: when every line's text already ends in `\n`, the normalized
output is the plain concatenation of all line texts unchanged. -/
theorem normalizer_noop_on_terminated (hunks : List DiffHunk)
    (h : ∀ l ∈ hunks.flatMap (fun h => h.lines), strEndsWith l.text "\n" = true) :
    normalizeText hunks
      = concatAll ((hunks.flatMap (fun h => h.lines)).map (fun l => l.text)) := by
  rw [normalizeText_eq_concat]
  congr 1
  apply List.map_congr_left
  intro l hl
  simp [formatLineEnding, h l hl]

theorem normalizer_noop_on_terminated_witness :
    (∀ l ∈ ([{ lines := [{ text := "x\n" }, { text := "y\n" }] }] :
        List DiffHunk).flatMap (fun h => h.lines),
      strEndsWith l.text "\n" = true)
    ∧ normalizeText [{ lines := [{ text := "x\n" }, { text := "y\n" }] }]
        = concatAll
            ((([{ lines := [{ text := "x\n" }, { text := "y\n" }] }] :
              List DiffHunk).flatMap (fun h => h.lines)).map (fun l => l.text)) :=
  ⟨by decide, normalizer_noop_on_terminated _ (by decide)⟩

/-- Claim C9: `getMediaType` is a pure total function mapping `.png` to the
png tag, `.jpg` and `.jpeg` to the same jpeg tag, `.gif` to the gif tag,
and every other extension — including case variants such as `.PNG` and
unknown ones such as `.bmp` — to the `text/plain` fallback; matching is
case-sensitive. -/
theorem media_type_mapping :
    getMediaType ".png" = "image/png"
    ∧ getMediaType ".jpg" = "image/jpg"
    ∧ getMediaType ".jpeg" = "image/jpg"
    ∧ getMediaType ".gif" = "image/gif"
    ∧ (∀ e : String, e ∉ imageFileExtensions → getMediaType e = "text/plain")
    ∧ getMediaType ".PNG" = "text/plain"
    ∧ getMediaType ".bmp" = "text/plain" := by
  refine ⟨by decide, by decide, by decide, by decide, ?_, by decide, by decide⟩
  intro e he
  simp [imageFileExtensions] at he
  obtain ⟨h1, h2, h3, h4⟩ := he
  simp [getMediaType, h1, h2, h3, h4]

theorem media_type_mapping_witness :
    (".xyz" : String) ∉ imageFileExtensions
    ∧ getMediaType ".xyz" = "text/plain" :=
  ⟨by decide, media_type_mapping.2.2.2.2.1 ".xyz" (by decide)⟩

/-- Claim C2 (code evaluated at the failing input): a non-binary `RawDiff`
whose first hunk has zero lines does not fall through to the Text variant;
the submodule check evaluates `diff.hunks[0].lines[0].text` with
`lines[0] = undefined`, so `convertDiff` rejects with a `TypeError`
instead of classifying the diff. -/
theorem zero_line_hunk_type_error :
    (convertDiff (fun _ => Except.ok "") (fun _ _ => Except.ok "") id
        { path := "a.txt", oldPath := none, status := FileStatus.Modified,
          inWorkingDir := true }
        { isBinary := false, hunks := [{ lines := [] }],
          diffLineForIndex := fun _ => none, diffHunkForIndex := fun _ => none }
        "HEAD").1
      = Except.error "TypeError" := rfl

/-- Claim C4: a non-binary `RawDiff` whose first hunk's first line contains
the substring `"Subproject"` is classified as the Submodule variant. -/
theorem submodule_detection (readWT : String → Except String String)
    (readBlob : String → String → Except String String)
    (base64 : String → String) (file : FileChange) (d : RawDiff) (c : String)
    (hb : d.isBinary = false) (h0 : DiffHunk) (t : List DiffHunk)
    (hd : d.hunks = h0 :: t) (l : DiffLine) (ls : List DiffLine)
    (hl : h0.lines = l :: ls)
    (hs : jsIndexOf l.text "Subproject" > -1) :
    (convertDiff readWT readBlob base64 file d c).1 = Except.ok IDiff.submodule := by
  simp [convertDiff, hb, hd, hl, hs]

theorem submodule_detection_witness :
    jsIndexOf "-Subproject commit abc123" "Subproject" > -1
    ∧ (convertDiff (fun _ => Except.ok "") (fun _ _ => Except.ok "") id
        { path := "mod", oldPath := none, status := FileStatus.Modified,
          inWorkingDir := true }
        { isBinary := false,
          hunks := [{ lines := [{ text := "-Subproject commit abc123" }] }],
          diffLineForIndex := fun _ => none, diffHunkForIndex := fun _ => none }
        "HEAD").1
      = Except.ok IDiff.submodule :=
  ⟨by decide,
    submodule_detection _ _ _ _ _ _ rfl _ _ rfl _ _ rfl (by decide)⟩

/-- Claim C10: when classification produces the Text variant, the result
carries the input's hunks and its two index-lookup functions unchanged;
normalization only produces the display string. -/
theorem text_variant_passthrough (readWT : String → Except String String)
    (readBlob : String → String → Except String String)
    (base64 : String → String) (file : FileChange) (d : RawDiff) (c : String)
    (hb : d.isBinary = false)
    (hns : d.hunks = []
      ∨ ∃ h0 t l ls, d.hunks = h0 :: t ∧ h0.lines = l :: ls
          ∧ ¬ jsIndexOf l.text "Subproject" > -1) :
    (convertDiff readWT readBlob base64 file d c).1
      = Except.ok (IDiff.text (normalizeText d.hunks) d.hunks
          d.diffLineForIndex d.diffHunkForIndex) := by
  rcases hns with h | ⟨h0, t, l, ls, hd, hl, hs⟩
  · simp [convertDiff, hb, h]
  · simp [convertDiff, hb, hd, hl, hs]

theorem text_variant_passthrough_witness :
    ¬ jsIndexOf "+hello" "Subproject" > -1
    ∧ (convertDiff (fun _ => Except.ok "") (fun _ _ => Except.ok "") id
        { path := "a.txt", oldPath := none, status := FileStatus.Modified,
          inWorkingDir := true }
        { isBinary := false, hunks := [{ lines := [{ text := "+hello" }] }],
          diffLineForIndex := fun _ => none, diffHunkForIndex := fun _ => none }
        "HEAD").1
      = Except.ok (IDiff.text
          (normalizeText [{ lines := [{ text := "+hello" }] }])
          [{ lines := [{ text := "+hello" }] }]
          (fun _ => none) (fun _ => none)) :=
  ⟨by decide,
    text_variant_passthrough _ _ _ _ _ _ rfl
      (Or.inr ⟨_, _, _, _, rfl, rfl, by decide⟩)⟩

/-- When both reader oracles always succeed, `getImageDiff` resolves to a
value (no rejection). -/
theorem getImageDiff_ok_of_readers_ok (readWT : String → Except String String)
    (readBlob : String → String → Except String String)
    (base64 : String → String) (file : FileChange) (c : String)
    (hW : ∀ p, ∃ v, readWT p = Except.ok v)
    (hB : ∀ p r, ∃ v, readBlob p r = Except.ok v) :
    ∃ d, (getImageDiff readWT readBlob base64 file c).1 = Except.ok d := by
  obtain ⟨a, ha⟩ := hW file.path
  obtain ⟨b, hb⟩ := hB (jsOr file.oldPath file.path) "HEAD"
  obtain ⟨c1, hc1⟩ := hB file.path c
  obtain ⟨d1, hd1⟩ := hB (jsOr file.oldPath file.path) (c ++ "^")
  cases hwd : file.inWorkingDir <;> cases hst : file.status <;>
    simp [getImageDiff, getWorkingDirectoryImage, getBlobImage,
      hwd, hst, ha, hb, hc1, hd1]

/-- Claim C3: for a binary `RawDiff`, classification returns the Image
variant exactly when the path's dot-prefixed extension (case-sensitive) is
in `{.png, .jpg, .jpeg, .gif}`, returns the payload-free Binary variant
otherwise, and never returns Text or Submodule (readers assumed
available, so image resolution completes). -/
theorem binary_classification (readWT : String → Except String String)
    (readBlob : String → String → Except String String)
    (base64 : String → String) (file : FileChange) (d : RawDiff) (c : String)
    (hbin : d.isBinary = true)
    (hW : ∀ p, ∃ v, readWT p = Except.ok v)
    (hB : ∀ p r, ∃ v, readBlob p r = Except.ok v) :
    (extname file.path ∈ imageFileExtensions →
       ∃ img, (convertDiff readWT readBlob base64 file d c).1
         = Except.ok (IDiff.image img))
    ∧ (extname file.path ∉ imageFileExtensions →
       (convertDiff readWT readBlob base64 file d c).1 = Except.ok IDiff.binary)
    ∧ (∀ t hs f1 f2, (convertDiff readWT readBlob base64 file d c).1
         ≠ Except.ok (IDiff.text t hs f1 f2))
    ∧ (convertDiff readWT readBlob base64 file d c).1
        ≠ Except.ok IDiff.submodule := by
  obtain ⟨idiff, hid⟩ :=
    getImageDiff_ok_of_readers_ok readWT readBlob base64 file c hW hB
  rcases hgid : getImageDiff readWT readBlob base64 file c with ⟨res, log⟩
  rw [hgid] at hid
  simp only at hid
  subst hid
  by_cases hm : extname file.path ∈ imageFileExtensions
  · refine ⟨fun _ => ⟨idiff, ?_⟩, fun hq => absurd hm hq,
      fun t hs f1 f2 => ?_, ?_⟩ <;>
      simp [convertDiff, hbin, hm, hgid]
  · refine ⟨fun hq => absurd hq hm, fun _ => ?_,
      fun t hs f1 f2 => ?_, ?_⟩ <;>
      simp [convertDiff, hbin, hm]

theorem binary_classification_witness :
    ((⟨true, [], fun _ => none, fun _ => none⟩ : RawDiff).isBinary = true)
    ∧ extname "a.png" ∈ imageFileExtensions
    ∧ ∃ img, (convertDiff (fun _ => Except.ok "wt") (fun _ _ => Except.ok "blob") id
        { path := "a.png", oldPath := none, status := FileStatus.Modified,
          inWorkingDir := true }
        ⟨true, [], fun _ => none, fun _ => none⟩ "HEAD").1
      = Except.ok (IDiff.image img) :=
  ⟨rfl, by decide,
    (binary_classification _ _ _ _ _ _ rfl
      (fun _ => ⟨"wt", rfl⟩) (fun _ _ => ⟨"blob", rfl⟩)).1 (by decide)⟩

/-- Claim C7: status gating in the Image Resolver — a New file's previous
side is absent and its previous-side read is never issued; a Deleted
file's current side is absent; a Conflicted working-tree file resolves to
both sides absent with no reads issued at all. -/
theorem status_side_gating (readWT : String → Except String String)
    (readBlob : String → String → Except String String)
    (base64 : String → String) (file : FileChange) (c : String) :
    (file.status = FileStatus.New →
       (∀ r, (getImageDiff readWT readBlob base64 file c).1 = Except.ok r →
          r.previous = none)
       ∧ (getImageDiff readWT readBlob base64 file c).2
           = (if file.inWorkingDir then [ReadReq.workingTree file.path]
              else [ReadReq.blob file.path c]))
    ∧ (file.status = FileStatus.Deleted →
       ∀ r, (getImageDiff readWT readBlob base64 file c).1 = Except.ok r →
         r.current = none)
    ∧ (file.inWorkingDir = true → file.status = FileStatus.Conflicted →
       getImageDiff readWT readBlob base64 file c
         = (Except.ok { previous := none, current := none }, [])) := by
  refine ⟨?_, ?_, ?_⟩
  · intro hst
    cases hwd : file.inWorkingDir
    · cases hc1 : readBlob file.path c <;>
        simp [getImageDiff, getBlobImage, hst, hwd, hc1]
    · cases ha : readWT file.path <;>
        simp [getImageDiff, getWorkingDirectoryImage, hst, hwd, ha]
  · intro hst
    cases hwd : file.inWorkingDir
    · cases hd1 : readBlob (jsOr file.oldPath file.path) (c ++ "^") <;>
        simp [getImageDiff, getBlobImage, hst, hwd, hd1]
    · cases hb : readBlob (jsOr file.oldPath file.path) "HEAD" <;>
        simp [getImageDiff, getBlobImage, hst, hwd, hb]
  · intro hwd hst
    simp [getImageDiff, hwd, hst]

theorem status_side_gating_witness :
    ((⟨"n.png", none, FileStatus.New, true⟩ : FileChange).status = FileStatus.New)
    ∧ (getImageDiff (fun _ => Except.ok "wt") (fun _ _ => Except.ok "blob") id
        ⟨"n.png", none, FileStatus.New, true⟩ "HEAD").2
      = (if (⟨"n.png", none, FileStatus.New, true⟩ : FileChange).inWorkingDir
         then [ReadReq.workingTree "n.png"] else [ReadReq.blob "n.png" "HEAD"]) :=
  ⟨rfl, ((status_side_gating _ _ _ _ _).1 rfl).2⟩

/-- Claim C8: for a renamed working-tree file with a (non-empty) prior
path, the previous side is read as a blob at `HEAD` using the prior path,
and the current side is read from the working tree using the current
path. -/
theorem rename_reads_prior_path (readWT : String → Except String String)
    (readBlob : String → String → Except String String)
    (base64 : String → String) (file : FileChange) (c : String)
    (hwd : file.inWorkingDir = true) (hst : file.status = FileStatus.Renamed)
    (op : String) (hop : file.oldPath = some op) (hne : op ≠ "")
    (cv pv : String) (hcur : readWT file.path = Except.ok cv)
    (hprev : readBlob op "HEAD" = Except.ok pv) :
    getImageDiff readWT readBlob base64 file c
      = (Except.ok
          { previous := some { contents := base64 pv,
                               mediaType := getMediaType (extname op) },
            current := some { contents := base64 cv,
                              mediaType := getMediaType (extname file.path) } },
         [ReadReq.workingTree file.path, ReadReq.blob op "HEAD"]) := by
  simp [getImageDiff, getWorkingDirectoryImage, getBlobImage, jsOr,
    hwd, hst, hop, hne, hcur, hprev]

theorem rename_reads_prior_path_witness :
    ((⟨"new.txt", some "old.txt", FileStatus.Renamed, true⟩ : FileChange).inWorkingDir = true)
    ∧ ((⟨"new.txt", some "old.txt", FileStatus.Renamed, true⟩ : FileChange).status
        = FileStatus.Renamed)
    ∧ getImageDiff (fun _ => Except.ok "wtbytes")
        (fun p r => Except.ok (p ++ "@" ++ r)) id
        ⟨"new.txt", some "old.txt", FileStatus.Renamed, true⟩ "HEAD"
      = (Except.ok
          { previous := some { contents := "old.txt@HEAD",
                               mediaType := getMediaType (extname "old.txt") },
            current := some { contents := "wtbytes",
                              mediaType := getMediaType (extname "new.txt") } },
         [ReadReq.workingTree "new.txt", ReadReq.blob "old.txt" "HEAD"]) :=
  ⟨rfl, rfl,
    rename_reads_prior_path _ _ _ _ _ rfl rfl "old.txt" rfl (by decide)
      "wtbytes" "old.txt@HEAD" rfl rfl⟩

/-- Claim C1 (counterexample): a conversion reaching the Image Resolver
with a failing working-tree read does not resolve that side to absent —
it rejects, propagating the read error to the caller. -/
theorem image_read_failure_rejects :
    (convertDiff (fun _ => Except.error "ENOENT") (fun _ _ => Except.ok "bytes") id
        { path := "a.png", oldPath := none, status := FileStatus.Modified,
          inWorkingDir := true }
        ⟨true, [], fun _ => none, fun _ => none⟩ "HEAD").1
      = Except.error "ENOENT" := rfl

/-- Claim C1 (amended): when an underlying read fails, the conversion
propagates the read failure to the caller as a rejection instead of
resolving that side to absent — shown for a modified working-tree file
with an image extension: a failure of either side's read rejects the
whole conversion with that error. -/
theorem read_failure_propagates (readWT : String → Except String String)
    (readBlob : String → String → Except String String)
    (base64 : String → String) (file : FileChange) (d : RawDiff) (c : String)
    (hbin : d.isBinary = true) (hext : extname file.path ∈ imageFileExtensions)
    (hwd : file.inWorkingDir = true) (hst : file.status = FileStatus.Modified) :
    (∀ e, readWT file.path = Except.error e →
       (convertDiff readWT readBlob base64 file d c).1 = Except.error e)
    ∧ (∀ v e, readWT file.path = Except.ok v →
        readBlob (jsOr file.oldPath file.path) "HEAD" = Except.error e →
        (convertDiff readWT readBlob base64 file d c).1 = Except.error e) := by
  constructor
  · intro e he
    simp [convertDiff, hbin, hext, getImageDiff, getWorkingDirectoryImage,
      hwd, hst, he]
  · intro v e hv he
    simp [convertDiff, hbin, hext, getImageDiff, getWorkingDirectoryImage,
      getBlobImage, hwd, hst, hv, he]

theorem read_failure_propagates_witness :
    ((⟨true, [], fun _ => none, fun _ => none⟩ : RawDiff).isBinary = true)
    ∧ extname "a.png" ∈ imageFileExtensions
    ∧ (convertDiff (fun _ => Except.ok "wt") (fun _ _ => Except.error "missing") id
        { path := "a.png", oldPath := none, status := FileStatus.Modified,
          inWorkingDir := true }
        ⟨true, [], fun _ => none, fun _ => none⟩ "HEAD").1
      = Except.error "missing" :=
  ⟨rfl, by decide,
    (read_failure_propagates _ _ _ _ _ _ rfl (by decide) rfl rfl).2
      "wt" "missing" rfl rfl⟩

end GitDiff
